import Mathlib

/-!
Shallow embedding of the rasterization pipeline described by the repository
specification.  The repository itself ships only example notebooks that call
the library's public API (Canvas, glyphs, reductions, transfer functions);
the core that the notebooks exercise is reconstructed here from the
specification text, definition by definition, with doc comments recording
the provenance of each modelled component.

Real-valued data coordinates are modelled by the rationals; a floating-point
NaN coordinate or column value is modelled by the value being absent
(an Option that is none).
-/

namespace Datashader

/-- Modelled from the spec: a Record is one input datapoint with numeric x, y
coordinates and optional auxiliary columns (value, category).  A coordinate or
column value of none models a floating-point NaN. -/
structure Record where
  x : Option ℚ
  y : Option ℚ
  val : Option ℚ
  cat : ℕ
deriving DecidableEq

/-- Modelled from the spec: a Canvas holds width, height and the x/y data
ranges, defining a fixed affine mapping from data space to cell coordinates. -/
structure Canvas where
  width : ℕ
  height : ℕ
  x_low : ℚ
  x_high : ℚ
  y_low : ℚ
  y_high : ℚ
deriving DecidableEq

/-- A Canvas is valid when width and height are positive and each range is an
ordered pair with low < high. -/
def Canvas.valid (c : Canvas) : Prop :=
  0 < c.width ∧ 0 < c.height ∧ c.x_low < c.x_high ∧ c.y_low < c.y_high

instance (c : Canvas) : Decidable c.valid := by
  unfold Canvas.valid; infer_instance

/-- Clamp an integer cell index into [0, n-1]: negative values go to 0 (via
Int.toNat) and values at least n go to n - 1. -/
def clampIdx (n : ℕ) (i : ℤ) : ℕ :=
  min (n - 1) i.toNat

/-- Modelled from the spec: col = floor((x - x_low) / (x_high - x_low) * width),
clamped to [0, width - 1]. -/
def Canvas.projectX (c : Canvas) (x : ℚ) : ℕ :=
  clampIdx c.width ⌊(x - c.x_low) / (c.x_high - c.x_low) * (c.width : ℚ)⌋

/-- Modelled from the spec: row = floor((y - y_low) / (y_high - y_low) * height),
clamped to [0, height - 1] (the row mapping is symmetric to the column one). -/
def Canvas.projectY (c : Canvas) (y : ℚ) : ℕ :=
  clampIdx c.height ⌊(y - c.y_low) / (c.y_high - c.y_low) * (c.height : ℚ)⌋

/-- Modelled from the spec: the pure projection function
project(x, y) -> (col, row). -/
def Canvas.project (c : Canvas) (x : ℚ) (y : ℚ) : ℕ × ℕ :=
  (c.projectX x, c.projectY y)

/-- Modelled from the spec: the configuration-time error for malformed ranges
or non-positive resolution. -/
inductive ConfigError where
  | InvalidRangeError
deriving DecidableEq

/-- Modelled from the spec: configure(width, height, x_range, y_range) fails
with InvalidRangeError when low >= high on either axis or width/height <= 0,
and otherwise returns the Canvas. -/
def configure (w h : ℤ) (xr yr : ℚ × ℚ) : Except ConfigError Canvas :=
  if xr.2 ≤ xr.1 ∨ yr.2 ≤ yr.1 ∨ w ≤ 0 ∨ h ≤ 0 then
    .error .InvalidRangeError
  else
    .ok ⟨w.toNat, h.toNat, xr.1, xr.2, yr.1, yr.2⟩

/-- Modelled from the spec: a reduction operator is a pure (init, combine)
pair on one cell's state, required to be associative and commutative with the
initial state as identity, together with the contribution a single record
makes to a cell it touches. -/
structure RedOp (M : Type) where
  empty : M
  comb : M → M → M
  contrib : Record → M
  comb_assoc : ∀ a b c, comb (comb a b) c = comb a (comb b c)
  comb_comm : ∀ a b, comb a b = comb b a
  empty_comb : ∀ a, comb empty a = a

/-- Combine a list of cell states with the operator's combine rule. -/
def msum {M : Type} (op : RedOp M) (l : List M) : M :=
  l.foldr op.comb op.empty

/-- Modelled from the spec: count, with no column, increments per record. -/
def countOp : RedOp ℕ where
  empty := 0
  comb := fun a b => a + b
  contrib := fun _ => 1
  comb_assoc := fun a b c => Nat.add_assoc a b c
  comb_comm := fun a b => Nat.add_comm a b
  empty_comb := fun a => Nat.zero_add a

/-- Modelled from the spec: count over a column counts the records whose value
in that column is not NaN, following the spec's non-NaN rule for
column-based reductions. -/
def countColOp : RedOp ℕ where
  empty := 0
  comb := fun a b => a + b
  contrib := fun r => if r.val.isSome then 1 else 0
  comb_assoc := fun a b c => Nat.add_assoc a b c
  comb_comm := fun a b => Nat.add_comm a b
  empty_comb := fun a => Nat.zero_add a

/-- Modelled from the spec: sum(col) adds the record's non-NaN value (a NaN
value contributes nothing). -/
def sumOp : RedOp ℚ where
  empty := 0
  comb := fun a b => a + b
  contrib := fun r => r.val.getD 0
  comb_assoc := fun a b c => add_assoc a b c
  comb_comm := fun a b => add_comm a b
  empty_comb := fun a => zero_add a

/-- Modelled from the spec: mean(col) keeps a running sum and count
accumulator pair; a NaN value contributes to neither. -/
def meanOp : RedOp (ℚ × ℕ) where
  empty := (0, 0)
  comb := fun a b => (a.1 + b.1, a.2 + b.2)
  contrib := fun r => match r.val with
    | some v => (v, 1)
    | none => (0, 0)
  comb_assoc := fun a b c => by simp [add_assoc]
  comb_comm := fun a b => by
    refine Prod.ext ?_ ?_
    · exact add_comm a.1 b.1
    · exact Nat.add_comm a.2 b.2
  empty_comb := fun a => by simp

/-- Modelled from the spec: any sets the cell's flag to true. -/
def anyOp : RedOp Bool where
  empty := false
  comb := fun a b => a || b
  contrib := fun _ => true
  comb_assoc := fun a b c => Bool.or_assoc a b c
  comb_comm := fun a b => Bool.or_comm a b
  empty_comb := fun a => Bool.false_or a

/-- Modelled from the spec: count_cat(col) increments the sub-slot for the
record's category value; the per-category counts are a function from
category index to count. -/
def countCatOp : RedOp (ℕ → ℕ) where
  empty := fun _ => 0
  comb := fun f g k => f k + g k
  contrib := fun r k => if k = r.cat then 1 else 0
  comb_assoc := fun f g h => funext fun k => Nat.add_assoc (f k) (g k) (h k)
  comb_comm := fun f g => funext fun k => Nat.add_comm (f k) (g k)
  empty_comb := fun f => funext fun k => Nat.zero_add (f k)

/-- A record has usable coordinates when neither x nor y is NaN. -/
def validRec (r : Record) : Bool :=
  r.x.isSome && r.y.isSome

/-- Modelled from the spec: the Point glyph maps one record to exactly one
cell (clamp-to-edge is the default policy); a record with a NaN coordinate is
mapped to no cell at all. -/
def pointCell (c : Canvas) (r : Record) : Option (ℕ × ℕ) :=
  match r.x, r.y with
  | some x, some y => some (c.project x y)
  | _, _ => none

/-- Each record kept by the Point glyph, tagged with its cell and its
contribution under the reduction operator; records with a NaN coordinate are
silently skipped. -/
def pointContribs {M : Type} (op : RedOp M) (c : Canvas) (rs : List Record) :
    List ((ℕ × ℕ) × M) :=
  rs.filterMap fun r => (pointCell c r).map fun p => (p, op.contrib r)

/-- Concatenation of the images of a list under a list-valued function. -/
def flatten2 {α β : Type} (f : α → List β) : List α → List β
  | [] => []
  | a :: l => f a ++ flatten2 f l

/-- The consecutive pairs of a list of records. -/
def segments (rs : List Record) : List (Record × Record) :=
  rs.zip rs.tail

/-- One step of the Bresenham error-accumulation loop, with explicit fuel. -/
def bresStep (fuel : ℕ) (x y x1 y1 dx dy sx sy err : ℤ) : List (ℤ × ℤ) :=
  match fuel with
  | 0 => []
  | fuel + 1 =>
    if x = x1 ∧ y = y1 then [(x, y)]
    else
      let e2 := 2 * err
      let x2 := if dy ≤ e2 then x + sx else x
      let errx := if dy ≤ e2 then err + dy else err
      let y2 := if e2 ≤ dx then y + sy else y
      let erry := if e2 ≤ dx then errx + dx else errx
      (x, y) :: bresStep fuel x2 y2 x1 y1 dx dy sx sy erry

/-- Modelled from the spec: Bresenham-style rasterization of the discrete
line segment between two cells, including both endpoints. -/
def bresenham (p0 p1 : ℕ × ℕ) : List (ℕ × ℕ) :=
  let x0 : ℤ := p0.1
  let y0 : ℤ := p0.2
  let x1 : ℤ := p1.1
  let y1 : ℤ := p1.2
  let dx : ℕ := (x1 - x0).natAbs
  let dy : ℕ := (y1 - y0).natAbs
  (bresStep (dx + dy + 1) x0 y0 x1 y1 (dx : ℤ) (-(dy : ℤ))
      (if x0 ≤ x1 then 1 else -1) (if y0 ≤ y1 then 1 else -1)
      ((dx : ℤ) - (dy : ℤ))).map fun q => (q.1.toNat, q.2.toNat)

/-- Modelled from the spec: the cells of the discrete path between the
projected endpoints of a segment; a segment with a NaN endpoint coordinate is
skipped without aborting the pass. -/
def segCells (c : Canvas) (r1 r2 : Record) : List (ℕ × ℕ) :=
  match r1.x, r1.y, r2.x, r2.y with
  | some x1, some y1, some x2, some y2 =>
      bresenham (c.project x1 y1) (c.project x2 y2)
  | _, _, _, _ => []

/-- Modelled from the spec: the Line glyph maps each pair of consecutive
records to the cells of the discrete path between their projected
coordinates; the pair's contribution is attributed once per covered cell. -/
def lineContribs {M : Type} (op : RedOp M) (c : Canvas) (rs : List Record) :
    List ((ℕ × ℕ) × M) :=
  flatten2 (fun s => (segCells c s.1 s.2).map fun p => (p, op.contrib s.1))
    (segments rs)

/-- The state of one cell: all tagged contributions that landed on the cell,
merged by the reduction operator's combine rule. -/
def cellAt {M : Type} (op : RedOp M) (contribs : List ((ℕ × ℕ) × M))
    (p : ℕ × ℕ) : M :=
  msum op ((contribs.filter fun q => decide (q.1 = p)).map Prod.snd)

/-- Modelled from the spec: aggregate(records, canvas, Point glyph, reduction)
read at one cell of the resulting Aggregate. -/
def aggPoint {M : Type} (op : RedOp M) (c : Canvas) (rs : List Record)
    (p : ℕ × ℕ) : M :=
  cellAt op (pointContribs op c rs) p

/-- Modelled from the spec: aggregate(records, canvas, Line glyph, reduction)
read at one cell of the resulting Aggregate. -/
def aggLine {M : Type} (op : RedOp M) (c : Canvas) (rs : List Record)
    (p : ℕ × ℕ) : M :=
  cellAt op (lineContribs op c rs) p

/-- Concatenation of a list of chunks back into one record stream. -/
def joinL {α : Type} : List (List α) → List α
  | [] => []
  | l :: ls => l ++ joinL ls

lemma msum_nil {M : Type} (op : RedOp M) : msum op [] = op.empty := rfl

lemma msum_cons {M : Type} (op : RedOp M) (x : M) (l : List M) :
    msum op (x :: l) = op.comb x (msum op l) := rfl

lemma msum_append {M : Type} (op : RedOp M) (l1 l2 : List M) :
    msum op (l1 ++ l2) = op.comb (msum op l1) (msum op l2) := by
  induction l1 with
  | nil => rw [List.nil_append, msum_nil, op.empty_comb]
  | cons a l ih => rw [List.cons_append, msum_cons, msum_cons, ih, op.comb_assoc]

lemma msum_perm {M : Type} (op : RedOp M) {l1 l2 : List M} (h : l1.Perm l2) :
    msum op l1 = msum op l2 := by
  induction h with
  | nil => rfl
  | cons a _ ih => rw [msum_cons, msum_cons, ih]
  | swap x y l =>
      rw [msum_cons, msum_cons, msum_cons, msum_cons, ← op.comb_assoc,
        ← op.comb_assoc, op.comb_comm y x]
  | trans _ _ ih1 ih2 => rw [ih1, ih2]

lemma cellAt_perm {M : Type} (op : RedOp M) {u v : List ((ℕ × ℕ) × M)}
    (h : u.Perm v) (p : ℕ × ℕ) : cellAt op u p = cellAt op v p :=
  msum_perm op ((h.filter _).map _)

lemma cellAt_append {M : Type} (op : RedOp M) (u v : List ((ℕ × ℕ) × M))
    (p : ℕ × ℕ) : cellAt op (u ++ v) p = op.comb (cellAt op u p) (cellAt op v p) := by
  unfold cellAt
  rw [List.filter_append, List.map_append, msum_append]

lemma pointContribs_append {M : Type} (op : RedOp M) (c : Canvas)
    (l1 l2 : List Record) :
    pointContribs op c (l1 ++ l2) = pointContribs op c l1 ++ pointContribs op c l2 := by
  unfold pointContribs
  rw [List.filterMap_append]

lemma aggPoint_perm {M : Type} (op : RedOp M) (c : Canvas)
    {rs1 rs2 : List Record} (h : rs1.Perm rs2) (p : ℕ × ℕ) :
    aggPoint op c rs1 p = aggPoint op c rs2 p :=
  cellAt_perm op (h.filterMap _) p

lemma aggPoint_append {M : Type} (op : RedOp M) (c : Canvas)
    (l1 l2 : List Record) (p : ℕ × ℕ) :
    aggPoint op c (l1 ++ l2) p = op.comb (aggPoint op c l1 p) (aggPoint op c l2 p) := by
  unfold aggPoint
  rw [pointContribs_append, cellAt_append]

lemma aggPoint_chunks {M : Type} (op : RedOp M) (c : Canvas)
    (chunks : List (List Record)) (p : ℕ × ℕ) :
    aggPoint op c (joinL chunks) p =
      msum op (chunks.map fun ch => aggPoint op c ch p) := by
  induction chunks with
  | nil => rfl
  | cons ch chunks ih =>
      rw [joinL, aggPoint_append, List.map_cons, msum_cons, ih]

lemma aggPoint_nil {M : Type} (op : RedOp M) (c : Canvas) (p : ℕ × ℕ) :
    aggPoint op c [] p = op.empty := rfl

lemma aggPoint_cons {M : Type} (op : RedOp M) (c : Canvas) (r : Record)
    (rs : List Record) (p : ℕ × ℕ) :
    aggPoint op c (r :: rs) p = op.comb (aggPoint op c [r] p) (aggPoint op c rs p) :=
  aggPoint_append op c [r] rs p

lemma aggPoint_single {M : Type} (op : RedOp M) (c : Canvas) (r : Record)
    (p : ℕ × ℕ) :
    aggPoint op c [r] p =
      if pointCell c r = some p then op.contrib r else op.empty := by
  unfold aggPoint pointContribs cellAt
  cases hpc : pointCell c r with
  | none => simp [hpc, msum_nil]
  | some q =>
      by_cases hq : q = p
      · subst hq
        simp [hpc, msum_cons, msum_nil, op.comb_comm, op.empty_comb]
      · simp [hpc, hq, msum_nil]

lemma aggPoint_cons_of_contrib_empty {M : Type} (op : RedOp M) (c : Canvas)
    {r : Record} (h : op.contrib r = op.empty) (rs : List Record) (p : ℕ × ℕ) :
    aggPoint op c (r :: rs) p = aggPoint op c rs p := by
  rw [aggPoint_cons, aggPoint_single]
  by_cases hc : pointCell c r = some p
  · rw [if_pos hc, h, op.empty_comb]
  · rw [if_neg hc, op.empty_comb]

lemma aggPoint_cons_of_invalid {M : Type} (op : RedOp M) (c : Canvas)
    {r : Record} (h : validRec r = false) (rs : List Record) (p : ℕ × ℕ) :
    aggPoint op c (r :: rs) p = aggPoint op c rs p := by
  rw [aggPoint_cons, aggPoint_single]
  have hpc : pointCell c r = none := by
    unfold validRec at h
    unfold pointCell
    cases hx : r.x with
    | none => rfl
    | some x =>
        cases hy : r.y with
        | none => rfl
        | some y => rw [hx, hy] at h; simp at h
  rw [hpc]
  simp [op.empty_comb]

/-- A segment is usable when neither endpoint has a NaN coordinate. -/
def validSeg (s : Record × Record) : Bool :=
  validRec s.1 && validRec s.2

/-- The Line glyph contributions restricted to the segments with no NaN
endpoint: NaN records act as run boundaries. -/
def lineContribsValid {M : Type} (op : RedOp M) (c : Canvas) (rs : List Record) :
    List ((ℕ × ℕ) × M) :=
  flatten2 (fun s => (segCells c s.1 s.2).map fun p => (p, op.contrib s.1))
    ((segments rs).filter validSeg)

/-- The Line aggregate computed from the valid segments only. -/
def aggLineValid {M : Type} (op : RedOp M) (c : Canvas) (rs : List Record)
    (p : ℕ × ℕ) : M :=
  cellAt op (lineContribsValid op c rs) p

lemma segCells_of_invalid (c : Canvas) {s : Record × Record}
    (h : validSeg s = false) : segCells c s.1 s.2 = [] := by
  unfold validSeg validRec at h
  unfold segCells
  cases hx1 : s.1.x with
  | none => rfl
  | some x1 =>
      cases hy1 : s.1.y with
      | none => rfl
      | some y1 =>
          cases hx2 : s.2.x with
          | none => rfl
          | some y2 =>
              cases hy2 : s.2.y with
              | none => rfl
              | some y2 => rw [hx1, hy1, hx2, hy2] at h; simp at h

lemma flatten2_filter_of_nil {α β : Type} (f : α → List β) (q : α → Bool)
    (l : List α) (h : ∀ x ∈ l, q x = false → f x = []) :
    flatten2 f l = flatten2 f (l.filter q) := by
  induction l with
  | nil => rfl
  | cons a l ih =>
      by_cases ha : q a = true
      · rw [List.filter_cons_of_pos ha, flatten2, flatten2,
          ih fun x hx => h x (List.mem_cons_of_mem a hx)]
      · have ha' : q a = false := by
          cases hqa : q a
          · rfl
          · exact absurd hqa ha
        rw [List.filter_cons_of_neg ha, flatten2, h a (List.mem_cons_self a l) ha',
          List.nil_append, ih fun x hx => h x (List.mem_cons_of_mem a hx)]

lemma lineContribs_eq_valid {M : Type} (op : RedOp M) (c : Canvas)
    (rs : List Record) : lineContribs op c rs = lineContribsValid op c rs := by
  unfold lineContribs lineContribsValid
  exact flatten2_filter_of_nil _ _ _ fun s _ hs => by
    rw [segCells_of_invalid c hs, List.map_nil]

lemma aggPoint_filter_valid {M : Type} (op : RedOp M) (c : Canvas)
    (rs : List Record) (p : ℕ × ℕ) :
    aggPoint op c rs p = aggPoint op c (rs.filter validRec) p := by
  induction rs with
  | nil => rfl
  | cons r rs ih =>
      by_cases h : validRec r = true
      · rw [List.filter_cons_of_pos h, aggPoint_cons op c r rs p,
          aggPoint_cons op c r (rs.filter validRec) p, ih]
      · have h' : validRec r = false := by
          cases hv : validRec r
          · rfl
          · exact absurd hv h
        rw [List.filter_cons_of_neg h, aggPoint_cons_of_invalid op c h', ih]

/-- One RGBA pixel with byte channels. -/
structure RGBA where
  r : ℕ
  g : ℕ
  b : ℕ
  a : ℕ
deriving DecidableEq

/-- Modelled from the spec: the final output, an array of shape
(height, width) of RGBA pixels. -/
structure Image where
  width : ℕ
  height : ℕ
  pix : ℕ → ℕ → RGBA

/-- A floating-point aggregate: per-cell optional value, none modelling NaN. -/
structure AggF where
  width : ℕ
  height : ℕ
  val : ℕ → ℕ → Option ℚ

/-- An integer aggregate (count-like): per-cell natural value, with zero as
the no-data sentinel. -/
structure AggN where
  width : ℕ
  height : ℕ
  val : ℕ → ℕ → ℕ

/-- Minimum of a list of rationals, 0 for the empty list. -/
def listMin : List ℚ → ℚ
  | [] => 0
  | a :: l => l.foldl min a

/-- Maximum of a list of rationals, 0 for the empty list. -/
def listMax : List ℚ → ℚ
  | [] => 0
  | a :: l => l.foldl max a

/-- Modelled from the spec: render(aggregate, colormap, how) applied per cell.
Step 1 masks cells flagged by the masked predicate; step 2 applies the how
transform to (value - min unmasked value), where how also receives the list of
shifted unmasked values so that rank-based equalization is expressible;
step 3 rescales the transformed values from their observed span to [0, 1] and
interpolates the colormap.  Masked cells get alpha 0; unmasked cells are
opaque for plain interpolation. -/
def renderWith {α : Type} (masked : α → Bool) (toVal : α → ℚ)
    (w h : ℕ) (val : ℕ → ℕ → α) (how : List ℚ → ℚ → ℚ)
    (cmap : ℚ → ℕ × ℕ × ℕ) : Image :=
  let vs := flatten2 (fun i =>
    ((List.range w).filter fun j => !(masked (val i j))).map
      fun j => toVal (val i j)) (List.range h)
  let vmin := listMin vs
  let svs := vs.map fun v => v - vmin
  let tvs := svs.map (how svs)
  let lo := listMin tvs
  let hi := listMax tvs
  { width := w, height := h,
    pix := fun i j =>
      if masked (val i j) then ⟨0, 0, 0, 0⟩
      else
        let t := how svs (toVal (val i j) - vmin)
        let s := if hi = lo then 1 else (t - lo) / (hi - lo)
        let rgb := cmap s
        ⟨rgb.1, rgb.2.1, rgb.2.2, 255⟩ }

/-- Modelled from the spec: render of a floating aggregate, where a cell is
masked exactly when its value is NaN. -/
def renderF (a : AggF) (how : List ℚ → ℚ → ℚ) (cmap : ℚ → ℕ × ℕ × ℕ) : Image :=
  renderWith (fun v => v.isNone) (fun v => v.getD 0) a.width a.height a.val how cmap

/-- Modelled from the spec: render of an integer aggregate, where a cell is
masked exactly when its value is zero (the no-data sentinel). -/
def renderN (a : AggN) (how : List ℚ → ℚ → ℚ) (cmap : ℚ → ℕ × ℕ × ℕ) : Image :=
  renderWith (fun v => v == 0) (fun v : ℕ => (v : ℚ)) a.width a.height a.val how cmap

lemma renderWith_alpha {α : Type} (masked : α → Bool) (toVal : α → ℚ)
    (w h : ℕ) (val : ℕ → ℕ → α) (how : List ℚ → ℚ → ℚ)
    (cmap : ℚ → ℕ × ℕ × ℕ) (i j : ℕ) :
    ((renderWith masked toVal w h val how cmap).pix i j).a =
      if masked (val i j) then 0 else 255 := by
  unfold renderWith
  by_cases hm : masked (val i j) = true
  · simp [hm]
  · simp [hm]

/-- The number of non-transparent pixels of an image. -/
def opaqueCount (img : Image) : ℕ :=
  ((List.range img.height).map fun i =>
    ((List.range img.width).filter fun j => !((img.pix i j).a == 0)).length).sum

/-- Modelled from the spec: the eq_hist transform replaces each unmasked
value by its fractional rank among all unmasked values, i.e. its empirical
CDF value in [0, 1]. -/
def fracRank (vs : List ℚ) (v : ℚ) : ℚ :=
  (vs.countP fun u => decide (u ≤ v)) / (vs.length : ℚ)

/-- The row-major list of unmasked (non-NaN) values of a floating aggregate. -/
def unmaskedValsF (a : AggF) : List ℚ :=
  flatten2 (fun i => (List.range a.width).filterMap fun j => a.val i j)
    (List.range a.height)

lemma exists_max (vs : List ℚ) (h : vs ≠ []) : ∃ m, m ∈ vs ∧ ∀ v ∈ vs, v ≤ m := by
  induction vs with
  | nil => exact absurd rfl h
  | cons a l ih =>
      cases l with
      | nil =>
          refine ⟨a, List.mem_singleton_self a, ?_⟩
          intro v hv
          rw [List.mem_singleton] at hv
          exact le_of_eq hv
      | cons b t =>
          obtain ⟨m, hm, hle⟩ := ih (by simp)
          by_cases ham : a ≤ m
          · refine ⟨m, List.mem_cons_of_mem a hm, ?_⟩
            intro v hv
            rcases List.mem_cons.mp hv with h1 | h2
            · exact h1 ▸ ham
            · exact hle v h2
          · refine ⟨a, List.mem_cons_self a _, ?_⟩
            intro v hv
            rcases List.mem_cons.mp hv with h1 | h2
            · exact le_of_eq h1
            · exact le_trans (hle v h2) (le_of_not_le ham)

lemma cnt_ranks_perm : ∀ (n : ℕ) (vs : List ℚ), vs.length = n → vs.Nodup →
    (vs.map fun v => vs.countP fun u => decide (u ≤ v)).Perm
      ((List.range n).map fun k => k + 1) := by
  intro n
  induction n with
  | zero =>
      intro vs hlen _
      rw [List.length_eq_zero] at hlen
      subst hlen
      rfl
  | succ n ih =>
      intro vs hlen hnd
      have hne : vs ≠ [] := by
        intro h
        rw [h] at hlen
        exact Nat.succ_ne_zero n hlen.symm
      obtain ⟨m, hm, hle⟩ := exists_max vs hne
      have hperm : vs.Perm (m :: vs.erase m) := List.perm_cons_erase hm
      have hmap := hperm.map fun v => vs.countP fun u => decide (u ≤ v)
      have hcm : (vs.countP fun u => decide (u ≤ m)) = n + 1 := by
        rw [← hlen]
        exact List.countP_eq_length.mpr fun a ha => decide_eq_true (hle a ha)
      have herase : ∀ v ∈ vs.erase m,
          (vs.countP fun u => decide (u ≤ v)) =
            ((vs.erase m).countP fun u => decide (u ≤ v)) := by
        intro v hv
        have hvm : v ≠ m ∧ v ∈ vs := (hnd.mem_erase_iff).mp hv
        rw [hperm.countP_eq, List.countP_cons]
        have hdm : decide (m ≤ v) = false := by
          apply decide_eq_false
          intro hmv
          exact hvm.1 (le_antisymm (hle v hvm.2) hmv)
        rw [hdm]
        simp
      have hmaperase :
          ((vs.erase m).map fun v => vs.countP fun u => decide (u ≤ v)) =
            ((vs.erase m).map fun v => (vs.erase m).countP fun u => decide (u ≤ v)) :=
        List.map_congr_left herase
      have hihlen : (vs.erase m).length = n := by
        rw [List.length_erase_of_mem hm, hlen]
        omega
      have hih := ih (vs.erase m) hihlen (List.Nodup.erase m hnd)
      have hr : ((List.range (n + 1)).map fun k => k + 1) =
          ((List.range n).map fun k => k + 1) ++ [n + 1] := by
        rw [List.range_succ, List.map_append]
        rfl
      refine hmap.trans ?_
      rw [List.map_cons, hcm, hmaperase]
      refine (List.Perm.cons _ hih).trans ?_
      rw [hr]
      exact (List.perm_append_singleton _ _).symm

lemma ranks_perm (vs : List ℚ) (hnd : vs.Nodup) :
    (vs.map (fracRank vs)).Perm
      ((List.range vs.length).map fun k : ℕ => ((k : ℚ) + 1) / (vs.length : ℚ)) := by
  have h := cnt_ranks_perm vs.length vs rfl hnd
  have h2 := h.map fun k : ℕ => (k : ℚ) / (vs.length : ℚ)
  rw [List.map_map, List.map_map] at h2
  have hl : vs.map ((fun k : ℕ => (k : ℚ) / (vs.length : ℚ)) ∘
      fun v => vs.countP fun u => decide (u ≤ v)) = vs.map (fracRank vs) := by
    apply List.map_congr_left
    intro a _
    simp [fracRank, Function.comp]
  have hr : (List.range vs.length).map ((fun k : ℕ => (k : ℚ) / (vs.length : ℚ)) ∘
      fun k => k + 1) =
      (List.range vs.length).map fun k : ℕ => ((k : ℚ) + 1) / (vs.length : ℚ) := by
    apply List.map_congr_left
    intro a _
    simp [Function.comp]
  rw [hl, hr] at h2
  exact h2

/-- The number of cells of an integer aggregate holding a nonzero count. -/
def countNonzero (a : AggN) : ℕ :=
  ((List.range a.height).map fun i =>
    ((List.range a.width).filter fun j => !(a.val i j == 0)).length).sum

/-- The 10 by 10 Canvas over (0,10) x (0,10) of the point scenario. -/
def canvas10 : Canvas := ⟨10, 10, 0, 10, 0, 10⟩

/-- The 4 by 4 Canvas over (0,4) x (0,4) of the line scenario. -/
def canvas4 : Canvas := ⟨4, 4, 0, 4, 0, 4⟩

/-- A record with the given coordinates and no auxiliary columns. -/
def pointRec (x y : ℚ) : Record := ⟨some x, some y, none, 0⟩

/-- A corrupt record whose coordinates are NaN. -/
def nanRec : Record := ⟨none, none, none, 0⟩

/-- The three point records of the count scenario. -/
def recs6 : List Record := [pointRec 1 1, pointRec 1 1, pointRec 5 5]

/-- The count aggregate of the scenario, laid out as an integer grid with
row index first (cell (col, row) is read at val row col). -/
def aggN6 : AggN := ⟨10, 10, fun i j => aggPoint countOp canvas10 recs6 (j, i)⟩

/-- A two-cell floating aggregate whose unmasked values are tied. -/
def aggTie : AggF := ⟨1, 2, fun _ _ => some 5⟩

/-- A two-cell floating aggregate with distinct unmasked values. -/
def aggDist : AggF := ⟨2, 1, fun _ j => if j = 0 then some 1 else some 3⟩

lemma projectX_mono (c : Canvas) (hd : c.x_low < c.x_high) {x x' : ℚ}
    (h : x ≤ x') : c.projectX x ≤ c.projectX x' := by
  unfold Canvas.projectX clampIdx
  refine min_le_min (le_refl _) (Int.toNat_le_toNat ?_)
  refine Int.floor_le_floor ?_
  have hdp : (0 : ℚ) < c.x_high - c.x_low := sub_pos.mpr hd
  refine mul_le_mul_of_nonneg_right ?_ (Nat.cast_nonneg c.width)
  exact (div_le_div_iff_of_pos_right hdp).mpr (sub_le_sub_right h _)

lemma projectY_mono (c : Canvas) (hd : c.y_low < c.y_high) {y y' : ℚ}
    (h : y ≤ y') : c.projectY y ≤ c.projectY y' := by
  unfold Canvas.projectY clampIdx
  refine min_le_min (le_refl _) (Int.toNat_le_toNat ?_)
  refine Int.floor_le_floor ?_
  have hdp : (0 : ℚ) < c.y_high - c.y_low := sub_pos.mpr hd
  refine mul_le_mul_of_nonneg_right ?_ (Nat.cast_nonneg c.height)
  exact (div_le_div_iff_of_pos_right hdp).mpr (sub_le_sub_right h _)

lemma aggPoint_filter_of_contrib_empty {M : Type} (op : RedOp M) (c : Canvas)
    (q : Record → Bool) (hq : ∀ r, q r = false → op.contrib r = op.empty)
    (rs : List Record) (p : ℕ × ℕ) :
    aggPoint op c rs p = aggPoint op c (rs.filter q) p := by
  induction rs with
  | nil => rfl
  | cons r rs ih =>
      by_cases h : q r = true
      · rw [List.filter_cons_of_pos h, aggPoint_cons op c r rs p,
          aggPoint_cons op c r (rs.filter q) p, ih]
      · have h' : q r = false := by
          cases hv : q r
          · rfl
          · exact absurd hv h
        rw [List.filter_cons_of_neg h,
          aggPoint_cons_of_contrib_empty op c (hq r h') rs p, ih]

lemma countCol_exact (c : Canvas) (rs : List Record) (p : ℕ × ℕ) :
    aggPoint countColOp c rs p =
      (rs.filter fun r => decide (pointCell c r = some p) && r.val.isSome).length := by
  induction rs with
  | nil => rfl
  | cons r rs ih =>
      rw [aggPoint_cons countColOp c r rs p, aggPoint_single]
      by_cases h1 : pointCell c r = some p
      · by_cases h2 : r.val.isSome = true
        · rw [if_pos h1, List.filter_cons_of_pos (by rw [h2, decide_eq_true h1]; rfl)]
          show (if r.val.isSome then 1 else 0) + _ = _
          rw [h2, if_pos rfl, List.length_cons, ih]
          omega
        · have h2' : r.val.isSome = false := by
            cases hv : r.val.isSome
            · rfl
            · exact absurd hv h2
          rw [if_pos h1, List.filter_cons_of_neg (by rw [h2']; simp)]
          show (if r.val.isSome then 1 else 0) + _ = _
          rw [h2']
          simpa using ih
      · rw [if_neg h1, List.filter_cons_of_neg (by rw [decide_eq_false h1]; simp)]
        show 0 + _ = _
        simpa using ih

lemma opaque_renderN (a : AggN) (how : List ℚ → ℚ → ℚ)
    (cmap : ℚ → ℕ × ℕ × ℕ) :
    opaqueCount (renderN a how cmap) = countNonzero a := by
  unfold opaqueCount countNonzero renderN
  congr 1
  apply List.map_congr_left
  intro i _
  congr 1
  apply List.filter_congr
  intro j _
  rw [renderWith_alpha]
  cases hv : (a.val i j == 0) with
  | true => simp
  | false => simp

/-- Projection of (1,1) on the 10 by 10 canvas. -/
lemma proj10_11 : canvas10.project 1 1 = (1, 1) := by
  unfold canvas10 Canvas.project Canvas.projectX Canvas.projectY clampIdx
  norm_num [Int.toNat_ofNat]
  all_goals decide

/-- Projection of (5,5) on the 10 by 10 canvas. -/
lemma proj10_55 : canvas10.project 5 5 = (5, 5) := by
  unfold canvas10 Canvas.project Canvas.projectX Canvas.projectY clampIdx
  norm_num [Int.toNat_ofNat]
  all_goals decide

/-- Projection of (2,1) on the 10 by 10 canvas. -/
lemma proj10_21 : canvas10.project 2 1 = (2, 1) := by
  unfold canvas10 Canvas.project Canvas.projectX Canvas.projectY clampIdx
  norm_num [Int.toNat_ofNat]
  all_goals decide

/-- Projection of (1,3) on the 10 by 10 canvas. -/
lemma proj10_13 : canvas10.project 1 3 = (1, 3) := by
  unfold canvas10 Canvas.project Canvas.projectX Canvas.projectY clampIdx
  norm_num [Int.toNat_ofNat]
  all_goals decide

/-- Projection of (0,0) on the 4 by 4 canvas. -/
lemma proj4_00 : canvas4.project 0 0 = (0, 0) := by
  unfold canvas4 Canvas.project Canvas.projectX Canvas.projectY clampIdx
  norm_num [Int.toNat_ofNat]
  all_goals decide

/-- Projection of (3,3) on the 4 by 4 canvas. -/
lemma proj4_33 : canvas4.project 3 3 = (3, 3) := by
  unfold canvas4 Canvas.project Canvas.projectX Canvas.projectY clampIdx
  norm_num [Int.toNat_ofNat]
  all_goals decide

/-- Projection of (0,3) on the 4 by 4 canvas. -/
lemma proj4_03 : canvas4.project 0 3 = (0, 3) := by
  unfold canvas4 Canvas.project Canvas.projectX Canvas.projectY clampIdx
  norm_num [Int.toNat_ofNat]
  all_goals decide

lemma seg4_00_33 : segCells canvas4 (pointRec 0 0) (pointRec 3 3) =
    [(0, 0), (1, 1), (2, 2), (3, 3)] := by
  show bresenham (canvas4.project 0 0) (canvas4.project 3 3) = _
  rw [proj4_00, proj4_33]
  decide

lemma seg4_03_00 : segCells canvas4 (pointRec 0 3) (pointRec 0 0) =
    [(0, 3), (0, 2), (0, 1), (0, 0)] := by
  show bresenham (canvas4.project 0 3) (canvas4.project 0 0) = _
  rw [proj4_03, proj4_00]
  decide

lemma seg4_00_03 : segCells canvas4 (pointRec 0 0) (pointRec 0 3) =
    [(0, 0), (0, 1), (0, 2), (0, 3)] := by
  show bresenham (canvas4.project 0 0) (canvas4.project 0 3) = _
  rw [proj4_00, proj4_03]
  decide

lemma seg4_03_33 : segCells canvas4 (pointRec 0 3) (pointRec 3 3) =
    [(0, 3), (1, 3), (2, 3), (3, 3)] := by
  show bresenham (canvas4.project 0 3) (canvas4.project 3 3) = _
  rw [proj4_03, proj4_33]
  decide

lemma lineContribs_diag : lineContribs anyOp canvas4 [pointRec 0 0, pointRec 3 3] =
    [((0, 0), true), ((1, 1), true), ((2, 2), true), ((3, 3), true)] := by
  have h : lineContribs anyOp canvas4 [pointRec 0 0, pointRec 3 3] =
      ((segCells canvas4 (pointRec 0 0) (pointRec 3 3)).map fun p => (p, true)) ++ [] := rfl
  rw [seg4_00_33] at h
  rw [h]
  decide

lemma aggLine_corner_first : aggLine anyOp canvas4
    [pointRec 0 3, pointRec 0 0, pointRec 3 3] (1, 1) = true := by
  have h : lineContribs anyOp canvas4 [pointRec 0 3, pointRec 0 0, pointRec 3 3] =
      ((segCells canvas4 (pointRec 0 3) (pointRec 0 0)).map fun p => (p, true)) ++
      (((segCells canvas4 (pointRec 0 0) (pointRec 3 3)).map fun p => (p, true)) ++ []) := rfl
  rw [seg4_03_00, seg4_00_33] at h
  show cellAt anyOp
    (lineContribs anyOp canvas4 [pointRec 0 3, pointRec 0 0, pointRec 3 3]) (1, 1) = true
  rw [h]
  decide

lemma aggLine_corner_last : aggLine anyOp canvas4
    [pointRec 0 0, pointRec 0 3, pointRec 3 3] (1, 1) = false := by
  have h : lineContribs anyOp canvas4 [pointRec 0 0, pointRec 0 3, pointRec 3 3] =
      ((segCells canvas4 (pointRec 0 0) (pointRec 0 3)).map fun p => (p, true)) ++
      (((segCells canvas4 (pointRec 0 3) (pointRec 3 3)).map fun p => (p, true)) ++ []) := rfl
  rw [seg4_00_03, seg4_03_33] at h
  show cellAt anyOp
    (lineContribs anyOp canvas4 [pointRec 0 0, pointRec 0 3, pointRec 3 3]) (1, 1) = false
  rw [h]
  decide

lemma aggLine_diag_true : aggLine anyOp canvas4
    [pointRec 0 0, pointRec 3 3] (1, 1) = true := by
  show cellAt anyOp (lineContribs anyOp canvas4 [pointRec 0 0, pointRec 3 3]) (1, 1) = true
  rw [lineContribs_diag]
  decide

lemma comb_empty_right {M : Type} (op : RedOp M) (a : M) :
    op.comb a op.empty = a := by
  rw [op.comb_comm]
  exact op.empty_comb a

lemma cellAt_eval_three {M : Type} (op : RedOp M) (q1 q2 q3 : ℕ × ℕ)
    (m1 m2 m3 : M) (p : ℕ × ℕ) :
    cellAt op [(q1, m1), (q2, m2), (q3, m3)] p =
      op.comb (if q1 = p then m1 else op.empty)
        (op.comb (if q2 = p then m2 else op.empty)
          (if q3 = p then m3 else op.empty)) := by
  unfold cellAt
  by_cases h1 : q1 = p <;> by_cases h2 : q2 = p <;> by_cases h3 : q3 = p <;>
    simp [h1, h2, h3, List.filter_cons, List.filter_nil, msum_cons, msum_nil,
      op.empty_comb, comb_empty_right]

lemma aggC6_eval (p : ℕ × ℕ) :
    aggPoint countOp canvas10 recs6 p =
      if p = (1, 1) then 2 else if p = (5, 5) then 1 else 0 := by
  have hpc : pointContribs countOp canvas10 recs6 =
      [(canvas10.project 1 1, 1), (canvas10.project 1 1, 1), (canvas10.project 5 5, 1)] := rfl
  rw [proj10_11, proj10_55] at hpc
  show cellAt countOp (pointContribs countOp canvas10 recs6) p = _
  rw [hpc, cellAt_eval_three]
  by_cases h1 : p = (1, 1)
  · subst h1
    decide
  · by_cases h2 : p = (5, 5)
    · subst h2
      decide
    · rw [if_neg h1, if_neg h2, if_neg fun hq => h1 hq.symm,
        if_neg fun hq => h2 hq.symm]
      rfl

/-- C1, as stated, is false: it quantifies over every glyph, but for the Line
glyph permuting the records changes which consecutive pairs form segments.
Swapping the first two of three records replaces the vertical-then-diagonal
path by a vertical-then-horizontal one, so the diagonal cell (1,1) is covered
before the permutation but not after, under the any reduction. -/
theorem C1_counterexample :
    ([pointRec 0 3, pointRec 0 0, pointRec 3 3].Perm
      [pointRec 0 0, pointRec 0 3, pointRec 3 3]) ∧
    aggLine anyOp canvas4 [pointRec 0 3, pointRec 0 0, pointRec 3 3] (1, 1) ≠
      aggLine anyOp canvas4 [pointRec 0 0, pointRec 0 3, pointRec 3 3] (1, 1) := by
  constructor
  · exact List.Perm.swap (pointRec 0 0) (pointRec 0 3) [pointRec 3 3]
  · rw [aggLine_corner_first, aggLine_corner_last]
    decide

/-- C1 amended: for the Point glyph, aggregation over any valid Canvas with
each of count, sum, mean, any and count_cat yields the same Aggregate on
every permutation of the records (for the Line glyph the order of the
records is part of the data, and permutation invariance fails). -/
theorem C1_point_perm_invariant (c : Canvas) (hc : c.valid)
    {rs1 rs2 : List Record} (h : rs1.Perm rs2) (p : ℕ × ℕ) :
    aggPoint countOp c rs1 p = aggPoint countOp c rs2 p ∧
    aggPoint sumOp c rs1 p = aggPoint sumOp c rs2 p ∧
    aggPoint meanOp c rs1 p = aggPoint meanOp c rs2 p ∧
    aggPoint anyOp c rs1 p = aggPoint anyOp c rs2 p ∧
    aggPoint countCatOp c rs1 p = aggPoint countCatOp c rs2 p :=
  ⟨aggPoint_perm countOp c h p, aggPoint_perm sumOp c h p,
    aggPoint_perm meanOp c h p, aggPoint_perm anyOp c h p,
    aggPoint_perm countCatOp c h p⟩

/-- Witness for C1 at a concrete canvas, record list and permutation. -/
theorem C1_point_perm_invariant_witness :
    aggPoint countOp canvas10 [pointRec 1 1, pointRec 5 5] (1, 1) =
      aggPoint countOp canvas10 [pointRec 5 5, pointRec 1 1] (1, 1) :=
  (C1_point_perm_invariant canvas10 (by decide)
    (List.Perm.swap (pointRec 5 5) (pointRec 1 1) []) (1, 1)).1

/-- C2, as stated, is false: it quantifies over every glyph, but for the Line
glyph a chunk boundary cuts the segment between the last record of one chunk
and the first record of the next.  Splitting a two-record line into two
one-record chunks loses the whole segment, so the merge of the partial
aggregates misses the diagonal cell (1,1) that the single pass covers. -/
theorem C2_counterexample :
    joinL [[pointRec 0 0], [pointRec 3 3]] = [pointRec 0 0, pointRec 3 3] ∧
    aggLine anyOp canvas4 [pointRec 0 0, pointRec 3 3] (1, 1) ≠
      msum anyOp ([[pointRec 0 0], [pointRec 3 3]].map
        fun ch => aggLine anyOp canvas4 ch (1, 1)) := by
  refine ⟨rfl, ?_⟩
  have h1 : aggLine anyOp canvas4 [pointRec 0 0] (1, 1) = false := rfl
  have h2 : aggLine anyOp canvas4 [pointRec 3 3] (1, 1) = false := rfl
  simp only [List.map_cons, List.map_nil]
  rw [aggLine_diag_true, h1, h2]
  decide

/-- C2 amended: for the Point glyph, aggregating each chunk of any partition
of the record stream separately and merging the per-cell partial states with
the operator's combine rule is bit-identical to the single-pass aggregate,
for each of count, sum, mean, any and count_cat (for the Line glyph a chunk
boundary cuts the segment crossing it). -/
theorem C2_point_chunk_invariant (c : Canvas) (hc : c.valid)
    (chunks : List (List Record)) (rs : List Record) (h : joinL chunks = rs)
    (p : ℕ × ℕ) :
    aggPoint countOp c rs p =
      msum countOp (chunks.map fun ch => aggPoint countOp c ch p) ∧
    aggPoint sumOp c rs p =
      msum sumOp (chunks.map fun ch => aggPoint sumOp c ch p) ∧
    aggPoint meanOp c rs p =
      msum meanOp (chunks.map fun ch => aggPoint meanOp c ch p) ∧
    aggPoint anyOp c rs p =
      msum anyOp (chunks.map fun ch => aggPoint anyOp c ch p) ∧
    aggPoint countCatOp c rs p =
      msum countCatOp (chunks.map fun ch => aggPoint countCatOp c ch p) := by
  subst h
  exact ⟨aggPoint_chunks countOp c chunks p, aggPoint_chunks sumOp c chunks p,
    aggPoint_chunks meanOp c chunks p, aggPoint_chunks anyOp c chunks p,
    aggPoint_chunks countCatOp c chunks p⟩

/-- Witness for C2 at a concrete canvas and chunking. -/
theorem C2_point_chunk_invariant_witness :
    aggPoint countOp canvas10 recs6 (1, 1) =
      msum countOp ([[pointRec 1 1], [pointRec 1 1, pointRec 5 5]].map
        fun ch => aggPoint countOp canvas10 ch (1, 1)) :=
  (C2_point_chunk_invariant canvas10 (by decide)
    [[pointRec 1 1], [pointRec 1 1, pointRec 5 5]] recs6 rfl (1, 1)).1

/-- C3: for every valid Canvas, project returns exactly the clamped floor
formula in each coordinate, is monotonic in x and in y, and always lands
within [0, width - 1] x [0, height - 1]. -/
theorem C3_project_monotone_bounded (c : Canvas) (hc : c.valid)
    (x x' y y' : ℚ) :
    (c.project x y =
      (clampIdx c.width ⌊(x - c.x_low) / (c.x_high - c.x_low) * (c.width : ℚ)⌋,
       clampIdx c.height ⌊(y - c.y_low) / (c.y_high - c.y_low) * (c.height : ℚ)⌋)) ∧
    (x ≤ x' → (c.project x y).1 ≤ (c.project x' y).1) ∧
    (y ≤ y' → (c.project x y).2 ≤ (c.project x y').2) ∧
    (c.project x y).1 ≤ c.width - 1 ∧ (c.project x y).2 ≤ c.height - 1 := by
  obtain ⟨hw, hh, hx, hy⟩ := hc
  refine ⟨rfl, ?_, ?_, ?_, ?_⟩
  · intro hxx
    exact projectX_mono c hx hxx
  · intro hyy
    exact projectY_mono c hy hyy
  · exact min_le_left _ _
  · exact min_le_left _ _

/-- Witness for C3 at the concrete 10 by 10 canvas. -/
theorem C3_project_monotone_bounded_witness :
    (canvas10.project 1 1).1 ≤ (canvas10.project 2 1).1 ∧
    (canvas10.project 1 1).2 ≤ (canvas10.project 1 3).2 ∧
    (canvas10.project 1 1).1 ≤ canvas10.width - 1 ∧
    (canvas10.project 1 1).2 ≤ canvas10.height - 1 := by
  have h := C3_project_monotone_bounded canvas10 (by decide) 1 2 1 3
  exact ⟨h.2.1 (by norm_num), h.2.2.1 (by norm_num), h.2.2.2.1, h.2.2.2.2⟩

/-- C4: for every aggregate and every how transform and colormap, render
masks exactly the NaN cells of a floating aggregate and exactly the zero
cells of an integer aggregate, and a cell's alpha in the final Image is 0
precisely when the cell is masked. -/
theorem C4_mask_alpha (aF : AggF) (aN : AggN) (how : List ℚ → ℚ → ℚ)
    (cmap : ℚ → ℕ × ℕ × ℕ) (i j : ℕ) :
    (((renderF aF how cmap).pix i j).a = 0 ↔ aF.val i j = none) ∧
    (((renderN aN how cmap).pix i j).a = 0 ↔ aN.val i j = 0) := by
  constructor
  · rw [renderF, renderWith_alpha]
    cases hv : aF.val i j with
    | none => simp [hv]
    | some v => simp [hv]
  · rw [renderN, renderWith_alpha]
    by_cases hv : aN.val i j = 0
    · simp [hv]
    · simp [hv]

/-- C5, as stated, is false: with tied unmasked values the fractional ranks
repeat, so their distribution is not uniform.  On an aggregate whose two
unmasked cells both hold 5, both ranks equal 1, while the uniform grid is
made of the two distinct values one half and one. -/
theorem C5_counterexample :
    ¬ (((unmaskedValsF aggTie).map (fracRank (unmaskedValsF aggTie))).Perm
      ((List.range (unmaskedValsF aggTie).length).map
        fun k : ℕ => ((k : ℚ) + 1) / ((unmaskedValsF aggTie).length : ℚ))) := by
  intro hperm
  have hvals : unmaskedValsF aggTie = [5, 5] := rfl
  have h5 : fracRank [(5 : ℚ), 5] 5 = 1 := by
    unfold fracRank
    rw [show (([5, 5] : List ℚ).countP fun u => decide (u ≤ 5)) = 2 from by decide,
      show ([5, 5] : List ℚ).length = 2 from rfl]
    norm_num
  rw [hvals] at hperm
  rw [show ([5, 5] : List ℚ).length = 2 from rfl,
    show List.range 2 = [0, 1] from rfl] at hperm
  simp only [List.map_cons, List.map_nil, h5] at hperm
  have hmem := hperm.symm.subset (List.mem_cons_self _ _)
  simp only [List.mem_cons, List.not_mem_nil, or_false, or_self] at hmem
  norm_num at hmem

/-- C5 amended: eq_hist replaces each unmasked value by its fractional rank
(its empirical CDF value); when the unmasked values are pairwise distinct,
the multiset of ranks is exactly the uniform grid 1/n, ..., n/n, independent
of the underlying value distribution.  With ties, tied cells share a rank
and uniformity can fail. -/
theorem C5_eq_hist_uniform (a : AggF) (hne : unmaskedValsF a ≠ [])
    (hnd : (unmaskedValsF a).Nodup) :
    ((unmaskedValsF a).map (fracRank (unmaskedValsF a))).Perm
      ((List.range (unmaskedValsF a).length).map
        fun k : ℕ => ((k : ℚ) + 1) / ((unmaskedValsF a).length : ℚ)) :=
  ranks_perm (unmaskedValsF a) hnd

/-- Witness for C5 on a concrete aggregate with distinct unmasked values. -/
theorem C5_eq_hist_uniform_witness :
    ((unmaskedValsF aggDist).map (fracRank (unmaskedValsF aggDist))).Perm
      ((List.range (unmaskedValsF aggDist).length).map
        fun k : ℕ => ((k : ℚ) + 1) / ((unmaskedValsF aggDist).length : ℚ)) :=
  C5_eq_hist_uniform aggDist
    (by rw [show unmaskedValsF aggDist = [(1 : ℚ), 3] from rfl]; simp)
    (by rw [show unmaskedValsF aggDist = [(1 : ℚ), 3] from rfl]; norm_num)

/-- C6: on the 10 by 10 canvas over (0,10) x (0,10), counting the three
point records (1,1), (1,1), (5,5) puts 2 in the bin of (1,1), 1 in the bin
of (5,5) and 0 in every other cell, and rendering the aggregate (whatever
the how transform and colormap) yields exactly 2 non-transparent pixels. -/
theorem C6_count_scenario :
    aggPoint countOp canvas10 recs6 (canvas10.project 1 1) = 2 ∧
    aggPoint countOp canvas10 recs6 (canvas10.project 5 5) = 1 ∧
    (∀ i : Fin 10, ∀ j : Fin 10,
      ((i : ℕ), (j : ℕ)) = canvas10.project 1 1 ∨
      ((i : ℕ), (j : ℕ)) = canvas10.project 5 5 ∨
      aggPoint countOp canvas10 recs6 ((i : ℕ), (j : ℕ)) = 0) ∧
    (∀ (how : List ℚ → ℚ → ℚ) (cmap : ℚ → ℕ × ℕ × ℕ),
      opaqueCount (renderN aggN6 how cmap) = 2) := by
  refine ⟨?_, ?_, ?_, ?_⟩
  · rw [proj10_11, aggC6_eval]
    decide
  · rw [proj10_55, aggC6_eval]
    decide
  · intro i j
    rw [proj10_11, proj10_55, aggC6_eval]
    by_cases h1 : (((i : ℕ), (j : ℕ)) : ℕ × ℕ) = (1, 1)
    · exact Or.inl h1
    · by_cases h2 : (((i : ℕ), (j : ℕ)) : ℕ × ℕ) = (5, 5)
      · exact Or.inr (Or.inl h2)
      · refine Or.inr (Or.inr ?_)
        rw [if_neg h1, if_neg h2]
  · intro how cmap
    rw [opaque_renderN]
    unfold countNonzero aggN6
    simp only [aggC6_eval]
    decide

/-- C7: the Line glyph segment from (0,0) to (3,3) on the 4 by 4 canvas
over (0,4) x (0,4) rasterizes to exactly the diagonal cells (0,0), (1,1),
(2,2), (3,3), both endpoints included, and under the any reduction all four
are marked visited. -/
theorem C7_line_diagonal :
    segCells canvas4 (pointRec 0 0) (pointRec 3 3) =
      [(0, 0), (1, 1), (2, 2), (3, 3)] ∧
    aggLine anyOp canvas4 [pointRec 0 0, pointRec 3 3] (0, 0) = true ∧
    aggLine anyOp canvas4 [pointRec 0 0, pointRec 3 3] (1, 1) = true ∧
    aggLine anyOp canvas4 [pointRec 0 0, pointRec 3 3] (2, 2) = true ∧
    aggLine anyOp canvas4 [pointRec 0 0, pointRec 3 3] (3, 3) = true := by
  refine ⟨seg4_00_33, ?_, aggLine_diag_true, ?_, ?_⟩
  · show cellAt anyOp
      (lineContribs anyOp canvas4 [pointRec 0 0, pointRec 3 3]) (0, 0) = true
    rw [lineContribs_diag]
    decide
  · show cellAt anyOp
      (lineContribs anyOp canvas4 [pointRec 0 0, pointRec 3 3]) (2, 2) = true
    rw [lineContribs_diag]
    decide
  · show cellAt anyOp
      (lineContribs anyOp canvas4 [pointRec 0 0, pointRec 3 3]) (3, 3) = true
    rw [lineContribs_diag]
    decide

/-- C8: configure fails with InvalidRangeError exactly when low >= high on
either axis or width or height is non-positive, and on every other input it
returns a valid Canvas.  The error arises at configuration time only:
aggregation in this model is a total function and raises nothing. -/
theorem C8_configure_errors (w h : ℤ) (xr yr : ℚ × ℚ) :
    (configure w h xr yr = .error .InvalidRangeError ↔
      (xr.2 ≤ xr.1 ∨ yr.2 ≤ yr.1 ∨ w ≤ 0 ∨ h ≤ 0)) ∧
    (¬(xr.2 ≤ xr.1 ∨ yr.2 ≤ yr.1 ∨ w ≤ 0 ∨ h ≤ 0) →
      ∃ c : Canvas, configure w h xr yr = .ok c ∧ c.valid) := by
  constructor
  · constructor
    · intro he
      by_contra hcond
      unfold configure at he
      rw [if_neg hcond] at he
      exact Except.noConfusion he
    · intro hcond
      unfold configure
      rw [if_pos hcond]
  · intro hcond
    refine ⟨⟨w.toNat, h.toNat, xr.1, xr.2, yr.1, yr.2⟩, ?_, ?_⟩
    · unfold configure
      rw [if_neg hcond]
    · push_neg at hcond
      obtain ⟨h1, h2, h3, h4⟩ := hcond
      refine ⟨?_, ?_, h1, h2⟩
      · show 0 < w.toNat
        omega
      · show 0 < h.toNat
        omega

/-- Witness for C8: zero width is rejected, a well-formed request accepted. -/
theorem C8_configure_errors_witness :
    configure 0 10 ((0 : ℚ), (10 : ℚ)) ((0 : ℚ), (10 : ℚ)) =
      .error .InvalidRangeError ∧
    ∃ c : Canvas, configure 10 10 ((0 : ℚ), (10 : ℚ)) ((0 : ℚ), (10 : ℚ)) =
      .ok c ∧ c.valid :=
  ⟨(C8_configure_errors 0 10 ((0 : ℚ), (10 : ℚ)) ((0 : ℚ), (10 : ℚ))).1.mpr
      (Or.inr (Or.inr (Or.inl (le_refl (0 : ℤ))))),
    (C8_configure_errors 10 10 ((0 : ℚ), (10 : ℚ)) ((0 : ℚ), (10 : ℚ))).2
      (by decide)⟩

/-- C9, as stated, is false for the Line glyph: the spec makes a NaN record a
run boundary, so both segments touching it are skipped, while aggregating
the remaining records alone joins the two neighbours into a new segment.
With records (0,0), NaN, (3,3), the line aggregate is everywhere empty but
the aggregate of the remaining records covers the diagonal cell (1,1). -/
theorem C9_counterexample :
    [pointRec 0 0, nanRec, pointRec 3 3].filter validRec =
      [pointRec 0 0, pointRec 3 3] ∧
    aggLine anyOp canvas4 [pointRec 0 0, nanRec, pointRec 3 3] (1, 1) ≠
      aggLine anyOp canvas4 [pointRec 0 0, pointRec 3 3] (1, 1) := by
  refine ⟨rfl, ?_⟩
  have hnan : aggLine anyOp canvas4 [pointRec 0 0, nanRec, pointRec 3 3] (1, 1) =
      false := rfl
  rw [hnan, aggLine_diag_true]
  decide

/-- C9 amended: aggregation never fails on NaN-coordinate records (it is a
total function in this model); each such record is skipped.  For the Point
glyph the aggregate equals the one obtained from the remaining records
alone; for the Line glyph every segment with a NaN endpoint is skipped, the
NaN record acting as a run boundary rather than being spliced out. -/
theorem C9_nan_skipped {M : Type} (op : RedOp M) (c : Canvas)
    (rs : List Record) (p : ℕ × ℕ) :
    aggPoint op c rs p = aggPoint op c (rs.filter validRec) p ∧
    aggLine op c rs p = aggLineValid op c rs p := by
  refine ⟨aggPoint_filter_valid op c rs p, ?_⟩
  unfold aggLine aggLineValid
  rw [lineContribs_eq_valid]

/-- C10: for the column reductions count(col), sum(col) and mean(col), a
record contributes to its cell only when its value in the column is not NaN
(the aggregate equals the one over the records with non-NaN values alone),
and count(col) counts exactly the records landing in the cell whose column
value is non-NaN. -/
theorem C10_column_nan_ignored (c : Canvas) (rs : List Record) (p : ℕ × ℕ) :
    aggPoint countColOp c rs p =
      aggPoint countColOp c (rs.filter fun r => r.val.isSome) p ∧
    aggPoint sumOp c rs p =
      aggPoint sumOp c (rs.filter fun r => r.val.isSome) p ∧
    aggPoint meanOp c rs p =
      aggPoint meanOp c (rs.filter fun r => r.val.isSome) p ∧
    aggPoint countColOp c rs p =
      (rs.filter fun r => decide (pointCell c r = some p) && r.val.isSome).length := by
  refine ⟨?_, ?_, ?_, countCol_exact c rs p⟩
  · refine aggPoint_filter_of_contrib_empty countColOp c _ ?_ rs p
    intro r hr
    show (if r.val.isSome then 1 else 0) = 0
    rw [hr]
    rfl
  · refine aggPoint_filter_of_contrib_empty sumOp c _ ?_ rs p
    intro r hr
    show r.val.getD 0 = 0
    cases hv : r.val with
    | none => rfl
    | some v =>
        rw [hv] at hr
        exact absurd hr (by simp)
  · refine aggPoint_filter_of_contrib_empty meanOp c _ ?_ rs p
    intro r hr
    show (match r.val with | some v => ((v : ℚ), (1 : ℕ)) | none => (0, 0)) = (0, 0)
    cases hv : r.val with
    | none => rfl
    | some v =>
        rw [hv] at hr
        exact absurd hr (by simp)

end Datashader
